import Mathlib

/-!
# Equilibrium: animation clock, scene transform graph, camera and mouse interaction

A shallow embedding of the animation/transform core of `equilibrium.cpp`:
`updateFrustFovY`, `drawScene` (the part that rewrites `g_objectRbt`), `motion`,
`mouse` and `idle`.

Conventions of the embedding.

* `float`/`double` values are scalars of a field `K`; the theorems are stated over `ℝ`
  (rounding is not modelled).  Everything that does not need `sin`, `cos` or `atan2`
  is a computable definition over an arbitrary field, so it can be run over `ℚ`.
* `int` values are `Int` (window sizes and pixel coordinates; overflow plays no role).
* The globals of the translation unit are the fields of `State`; every callback is a
  function `State → State`.  Calls that only talk to OpenGL/GLUT are left out.
* `matrix4.h` and `cvec.h` are not part of the sources at hand; the few operations of
  `Matrix4` that the callbacks use are modelled from the specification (a conventional
  row-major homogeneous 4x4 matrix library).
-/

namespace Equilibrium

/-! ## Linear-algebra primitives -/

/-- Homogeneous 4x4 matrix; `m i j` is the source's `m(i, j)` (row, column). -/
abbrev Matrix4 (K : Type) := Matrix (Fin 4) (Fin 4) K

/-- Three-component vector; `v i` is the source's `v[i]`. -/
abbrev Cvec3 (K : Type) := Fin 3 → K

section Primitives

variable {K : Type} [Field K]

/-- Modelled from the spec: `Matrix4::makeTranslation(t)` of the absent `matrix4.h`, the
identity matrix with `t` written into the fourth column. -/
def makeTranslation (t : Cvec3 K) : Matrix4 K :=
  !![1, 0, 0, t 0;
     0, 1, 0, t 1;
     0, 0, 1, t 2;
     0, 0, 0, 1]

/-- Modelled from the spec: `Matrix4::makeScale(s)` of the absent `matrix4.h`, the
identity matrix with `s` written onto the diagonal of the linear part. -/
def makeScale (s : Cvec3 K) : Matrix4 K :=
  !![s 0, 0, 0, 0;
     0, s 1, 0, 0;
     0, 0, s 2, 0;
     0, 0, 0, 1]

/-- Modelled from the spec: `Matrix4::makeXRotation(c, s)` of the absent `matrix4.h`
(rotation about the x axis given the cosine and sine of the angle, right-handed). -/
def makeXRotationCS (c s : K) : Matrix4 K :=
  !![1, 0, 0, 0;
     0, c, -s, 0;
     0, s, c, 0;
     0, 0, 0, 1]

/-- Modelled from the spec: `Matrix4::makeYRotation(c, s)` of the absent `matrix4.h`. -/
def makeYRotationCS (c s : K) : Matrix4 K :=
  !![c, 0, s, 0;
     0, 1, 0, 0;
     -s, 0, c, 0;
     0, 0, 0, 1]

/-- Modelled from the spec: `Matrix4::makeZRotation(c, s)` of the absent `matrix4.h`. -/
def makeZRotationCS (c s : K) : Matrix4 K :=
  !![c, -s, 0, 0;
     s, c, 0, 0;
     0, 0, 1, 0;
     0, 0, 0, 1]

/-- Determinant of the linear (upper-left 3x3) part, as expanded inside `inv`. -/
def det3 (m : Matrix4 K) : K :=
  m 0 0 * (m 1 1 * m 2 2 - m 1 2 * m 2 1) +
  m 0 1 * (m 1 2 * m 2 0 - m 1 0 * m 2 2) +
  m 0 2 * (m 1 0 * m 2 1 - m 1 1 * m 2 0)

/-- Modelled from the spec: `inv(m)` of the absent `matrix4.h`, the inverse of an affine
matrix (last row `0 0 0 1`): the linear part is inverted by cofactors and the translation
is mapped to minus the inverted linear part applied to it.  The header's assertions
(affine argument, non-zero determinant) are not modelled; division by zero yields zero. -/
def inv (m : Matrix4 K) : Matrix4 K :=
  let det := det3 m
  let r00 := (m 1 1 * m 2 2 - m 1 2 * m 2 1) / det
  let r10 := -(m 1 0 * m 2 2 - m 1 2 * m 2 0) / det
  let r20 := (m 1 0 * m 2 1 - m 1 1 * m 2 0) / det
  let r01 := -(m 0 1 * m 2 2 - m 0 2 * m 2 1) / det
  let r11 := (m 0 0 * m 2 2 - m 0 2 * m 2 0) / det
  let r21 := -(m 0 0 * m 2 1 - m 0 1 * m 2 0) / det
  let r02 := (m 0 1 * m 1 2 - m 0 2 * m 1 1) / det
  let r12 := -(m 0 0 * m 1 2 - m 0 2 * m 1 0) / det
  let r22 := (m 0 0 * m 1 1 - m 0 1 * m 1 0) / det
  !![r00, r01, r02, -(m 0 3 * r00 + m 1 3 * r01 + m 2 3 * r02);
     r10, r11, r12, -(m 0 3 * r10 + m 1 3 * r11 + m 2 3 * r12);
     r20, r21, r22, -(m 0 3 * r20 + m 1 3 * r21 + m 2 3 * r22);
     0, 0, 0, 1]

/-- Modelled from the spec: `transFact(m)` of the absent `matrix4.h`, the translation
factor of `m` (identity linear part, the translation column of `m`). -/
def transFact (m : Matrix4 K) : Matrix4 K :=
  !![1, 0, 0, m 0 3;
     0, 1, 0, m 1 3;
     0, 0, 1, m 2 3;
     0, 0, 0, 1]

/-- Modelled from the spec: `linFact(m)` of the absent `matrix4.h`, the linear factor of
`m` (the linear part of `m`, no translation). -/
def linFact (m : Matrix4 K) : Matrix4 K :=
  !![m 0 0, m 0 1, m 0 2, 0;
     m 1 0, m 1 1, m 1 2, 0;
     m 2 0, m 2 1, m 2 2, 0;
     0, 0, 0, 1]

/-- Assignment `m(i, j) = v` to one entry of a matrix. -/
def setEntry (m : Matrix4 K) (i j : Fin 4) (v : K) : Matrix4 K :=
  fun a b => if a = i ∧ b = j then v else m a b

/-- Position of a transform: `Cvec3(m(0, 3), m(1, 3), m(2, 3))`, as `drawScene` reads it
for `sphereCoords` and `octaCoords`. -/
def position (m : Matrix4 K) : Cvec3 K := ![m 0 3, m 1 3, m 2 3]

/-- The last row of `m` is `0 0 0 1`. -/
def isAffine (m : Matrix4 K) : Prop :=
  m 3 0 = 0 ∧ m 3 1 = 0 ∧ m 3 2 = 0 ∧ m 3 3 = 1

/-- The linear part of `m` is orthonormal: its columns are unit vectors that are
pairwise orthogonal (no scale, no shear). -/
def orthonormalLin (m : Matrix4 K) : Prop :=
  (linFact m).transpose * linFact m = 1

/-- Rigid-body transform: affine with an orthonormal linear part. -/
def isRigid (m : Matrix4 K) : Prop := isAffine m ∧ orthonormalLin m

/-- Squared Euclidean distance between two points. -/
def dist2 (p q : Cvec3 K) : K :=
  (p 0 - q 0) ^ 2 + (p 1 - q 1) ^ 2 + (p 2 - q 2) ^ 2

end Primitives

/-! ## Angles, `sin`, `cos`, `atan2` -/

/-- Modelled from the spec: the constant `CS150_PI` of the absent `matrix4.h`. -/
noncomputable def CS150_PI : ℝ := Real.pi

/-- Modelled from the spec: `Matrix4::makeXRotation(ang)` of the absent `matrix4.h`, the
rotation about the x axis by `ang` degrees. -/
noncomputable def makeXRotation (ang : ℝ) : Matrix4 ℝ :=
  makeXRotationCS (Real.cos (ang * CS150_PI / 180)) (Real.sin (ang * CS150_PI / 180))

/-- Modelled from the spec: `Matrix4::makeYRotation(ang)` of the absent `matrix4.h`. -/
noncomputable def makeYRotation (ang : ℝ) : Matrix4 ℝ :=
  makeYRotationCS (Real.cos (ang * CS150_PI / 180)) (Real.sin (ang * CS150_PI / 180))

/-- Modelled from the spec: `Matrix4::makeZRotation(ang)` of the absent `matrix4.h`. -/
noncomputable def makeZRotation (ang : ℝ) : Matrix4 ℝ :=
  makeZRotationCS (Real.cos (ang * CS150_PI / 180)) (Real.sin (ang * CS150_PI / 180))

/-- The C library function `atan2(y, x)`: the angle in `(-π, π]` of the point `(x, y)`,
and `0` at the origin. -/
noncomputable def atan2 (y x : ℝ) : ℝ := Complex.arg ⟨x, y⟩

/-- Euclidean distance between two points. -/
noncomputable def distance (p q : Cvec3 ℝ) : ℝ := Real.sqrt (dist2 p q)

/-! ## Program state -/

/-- The constants `GLUT_LEFT_BUTTON`, `GLUT_MIDDLE_BUTTON`, `GLUT_RIGHT_BUTTON`,
`GLUT_DOWN`, `GLUT_UP` of `GL/glut.h`. -/
def GLUT_LEFT_BUTTON : Int := 0

def GLUT_MIDDLE_BUTTON : Int := 1

def GLUT_RIGHT_BUTTON : Int := 2

def GLUT_DOWN : Int := 0

def GLUT_UP : Int := 1

/-- The globals of `equilibrium.cpp` that the callbacks below read or write.
`g_objToManip` indexes `g_objectRbt`, an array of `g_numObjects = 3` matrices. -/
structure State (K : Type) where
  g_frustMinFov : K
  g_frustFovY : K
  g_windowWidth : Int
  g_windowHeight : Int
  g_mouseClickDown : Bool
  g_mouseLClickButton : Bool
  g_mouseRClickButton : Bool
  g_mouseMClickButton : Bool
  g_mouseClickX : Int
  g_mouseClickY : Int
  g_objToManip : Fin 3
  g_animClock : K
  g_animSpeed : K
  g_elapsedTime : Int
  g_animIncrement : K
  g_eyeRbt : Matrix4 K
  g_objectRbt : Fin 3 → Matrix4 K

section Callbacks

variable {K : Type} [LinearOrderedField K]

/-- `g_animStart = 0.0`. -/
def g_animStart : K := 0

/-- `g_animMax = 1.0`. -/
def g_animMax : K := 1

/-- The initial values of the globals.  The three mouse button flags have static
storage and no initialiser, so they start out `false`, like the click coordinates
start out `0`. -/
def initState : State K where
  g_frustMinFov := 60
  g_frustFovY := 60
  g_windowWidth := 512
  g_windowHeight := 512
  g_mouseClickDown := false
  g_mouseLClickButton := false
  g_mouseRClickButton := false
  g_mouseMClickButton := false
  g_mouseClickX := 0
  g_mouseClickY := 0
  g_objToManip := 0
  g_animClock := g_animStart
  g_animSpeed := 0.5
  g_elapsedTime := 0
  g_animIncrement := 0.5 / 60
  g_eyeRbt := makeTranslation ![0, 3.25, 10]
  g_objectRbt := ![makeTranslation ![0, 4, 0], makeTranslation ![-4, 3, 0],
    makeTranslation ![4, 3, 0]]

/-- The callback `idle`: rescale the animation increment to the time the last frame
took, advance the clock, and cycle to the start when it has passed `g_animMax`. -/
def idle (s : State K) : State K :=
  let g_animIncrement := s.g_animSpeed * (s.g_elapsedTime : K) / 1000
  let g_animClock := s.g_animClock + g_animIncrement
  { s with
    g_animIncrement := g_animIncrement
    g_animClock := if g_animClock > g_animMax then g_animStart else g_animClock }

/-- The callback `mouse`: remember where the click happened, set the flag of a button
that went down, clear the flag of a button that went up, and recompute
`g_mouseClickDown`. -/
def mouse (button state x y : Int) (s : State K) : State K :=
  let l1 := s.g_mouseLClickButton || (button == GLUT_LEFT_BUTTON && state == GLUT_DOWN)
  let r1 := s.g_mouseRClickButton || (button == GLUT_RIGHT_BUTTON && state == GLUT_DOWN)
  let m1 := s.g_mouseMClickButton || (button == GLUT_MIDDLE_BUTTON && state == GLUT_DOWN)
  let l2 := l1 && !(button == GLUT_LEFT_BUTTON && state == GLUT_UP)
  let r2 := r1 && !(button == GLUT_RIGHT_BUTTON && state == GLUT_UP)
  let m2 := m1 && !(button == GLUT_MIDDLE_BUTTON && state == GLUT_UP)
  { s with
    g_mouseClickX := x
    g_mouseClickY := s.g_windowHeight - y - 1
    g_mouseLClickButton := l2
    g_mouseRClickButton := r2
    g_mouseMClickButton := m2
    g_mouseClickDown := l2 || r2 || m2 }

/-- The callback `keyboard`, for the keys that change a modelled global: `o` cycles the
object to manipulate (`(g_objToManip + 1) % g_numObjects`), `+` and `-` change the
animation speed. -/
def keyboard (key : Char) (s : State K) : State K :=
  if key = 'o' then { s with g_objToManip := s.g_objToManip + 1 }
  else if key = '+' then { s with g_animSpeed := s.g_animSpeed * 1.05 }
  else if key = '-' then { s with g_animSpeed := s.g_animSpeed * 0.95 }
  else s

/-- The part of `drawScene` that rewrites `g_objectRbt`, given the three rotators:
object 0 spins, object 1 orbits object 0, object 2 is placed by the chase expression.
The locals `translation`, `scale` and `scaledMatrix` of the source are never read and
are left out. -/
def updateObjects (rotatorX rotatorY rotatorZ : Matrix4 K) (g_objectRbt : Fin 3 → Matrix4 K) :
    Fin 3 → Matrix4 K :=
  let obj0 := g_objectRbt 0 * rotatorZ * rotatorX
  let obj1 := obj0 * rotatorY * inv obj0 * g_objectRbt 1
  let sphereCoords := position obj1
  let octaCoords := position (g_objectRbt 2)
  let toSphere := sphereCoords - octaCoords
  let newMatrix :=
    setEntry (setEntry (setEntry (setEntry 1 0 3 (toSphere 0)) 1 3 (toSphere 1))
      2 3 (toSphere 2)) 3 3 1
  let obj2 := makeScale ![0.4, 0.4, 0.4] *
    transFact (transFact (g_objectRbt 2) * newMatrix * inv obj1)
  ![obj0, obj1, obj2]

/-- The orbit scenario: object 0 at the identity, object 1 at `translate(1, 0, 0)`, and
a clock increment of `0.25`, a quarter turn. -/
def orbitScenario : State K :=
  { (initState : State K) with
    g_animIncrement := 0.25
    g_objectRbt := ![1, makeTranslation ![1, 0, 0], makeTranslation ![4, 3, 0]] }

/-- A clock scenario: the clock at `0.5`, speed `0.5`, and a frame that took one
second. -/
def clockAtMax : State K :=
  { (initState : State K) with g_animClock := 0.5, g_animSpeed := 0.5, g_elapsedTime := 1000 }

/-- A clock scenario: the clock at `0`, speed `-0.5`, and a frame that took 16 ms. -/
def clockReversed : State K :=
  { (initState : State K) with g_animClock := 0, g_animSpeed := -0.5, g_elapsedTime := 16 }

end Callbacks

/-- The incremental transform `m` that `motion` chooses from the three button flags and
the drag delta; `Matrix4 m` starts out as the identity. -/
noncomputable def motionM (l r mid : Bool) (dx dy : ℝ) : Matrix4 ℝ :=
  if l && !r then makeXRotation (-dy) * makeYRotation dx
  else if r && !l then makeTranslation (fun i => ![dx, dy, 0] i * 0.01)
  else if mid || (l && r) then makeTranslation (fun i => ![0, 0, -dy] i * 0.01)
  else 1

/-- The callback `motion`. -/
noncomputable def motion (x y : Int) (s : State ℝ) : State ℝ :=
  let dx : ℝ := ((x - s.g_mouseClickX : Int) : ℝ)
  let dy : ℝ := ((s.g_windowHeight - y - 1 - s.g_mouseClickY : Int) : ℝ)
  let m := motionM s.g_mouseLClickButton s.g_mouseRClickButton s.g_mouseMClickButton dx dy
  let g_objectRbt :=
    if s.g_mouseClickDown then
      let a := transFact (s.g_objectRbt s.g_objToManip) * linFact s.g_eyeRbt
      Function.update s.g_objectRbt s.g_objToManip
        (a * m * inv a * s.g_objectRbt s.g_objToManip)
    else s.g_objectRbt
  { s with
    g_objectRbt := g_objectRbt
    g_mouseClickX := x
    g_mouseClickY := s.g_windowHeight - y - 1 }

/-- The effect of `drawScene` on the globals: the rotators turn through
`g_animIncrement * 360` degrees and the three object transforms are rewritten. -/
noncomputable def drawScene (s : State ℝ) : State ℝ :=
  let rotatorY := makeYRotation (s.g_animIncrement * 360)
  let rotatorX := makeXRotation (s.g_animIncrement * 360)
  let rotatorZ := makeZRotation (s.g_animIncrement * 360)
  { s with g_objectRbt := updateObjects rotatorX rotatorY rotatorZ s.g_objectRbt }

/-- The callback `display`: draw the scene, then record the time the frame took
(`currentTime - lastTime`, a value read from the GLUT timer). -/
noncomputable def display (elapsed : Int) (s : State ℝ) : State ℝ :=
  { drawScene s with g_elapsedTime := elapsed }

/-- The function `updateFrustFovY`. -/
noncomputable def updateFrustFovY (s : State ℝ) : State ℝ :=
  if s.g_windowWidth ≥ s.g_windowHeight then
    { s with g_frustFovY := s.g_frustMinFov }
  else
    let RAD_PER_DEG : ℝ := 0.5 * CS150_PI / 180
    { s with
      g_frustFovY :=
        atan2 (Real.sin (s.g_frustMinFov * RAD_PER_DEG) * (s.g_windowHeight : ℝ) /
            (s.g_windowWidth : ℝ))
          (Real.cos (s.g_frustMinFov * RAD_PER_DEG)) / RAD_PER_DEG }

/-- The callback `reshape`. -/
noncomputable def reshape (w h : Int) (s : State ℝ) : State ℝ :=
  updateFrustFovY { s with g_windowWidth := w, g_windowHeight := h }

/-- States the program can be in: the initial state and whatever the callbacks make
of a reachable state. -/
inductive Reachable : State ℝ → Prop
  | init : Reachable initState
  | mouse (button state x y : Int) {s : State ℝ} : Reachable s →
      Reachable (mouse button state x y s)
  | motion (x y : Int) {s : State ℝ} : Reachable s → Reachable (motion x y s)
  | idle {s : State ℝ} : Reachable s → Reachable (idle s)
  | display (elapsed : Int) {s : State ℝ} : Reachable s → Reachable (display elapsed s)
  | reshape (w h : Int) {s : State ℝ} : Reachable s → Reachable (reshape w h s)
  | keyboard (key : Char) {s : State ℝ} : Reachable s → Reachable (keyboard key s)

/-- A chase run: from the initial state the user presses `o` twice (object 2 is
selected), presses the right button at `(500, 0)` and drags to `(-200, 0)`, which moves
object 2 from `(4, 3, 0)` to `(-3, 3, 0)`, one unit away from object 1; then `idle` runs
while `g_elapsedTime` is still `0`. -/
noncomputable def chaseRun : State ℝ :=
  idle (motion (-200) 0 (mouse GLUT_RIGHT_BUTTON GLUT_DOWN 500 0
    (keyboard 'o' (keyboard 'o' initState))))

/-- A catch run: like the chase run, but the drag ends at `(-300, 0)`, which moves
object 2 from `(4, 3, 0)` to `(-4, 3, 0)`, exactly onto object 1; then `idle` runs while
`g_elapsedTime` is still `0`. -/
noncomputable def catchRun : State ℝ :=
  idle (motion (-300) 0 (mouse GLUT_RIGHT_BUTTON GLUT_DOWN 500 0
    (keyboard 'o' (keyboard 'o' initState))))

/-! ## Basic facts about the primitives -/

section PrimitiveLemmas

variable {K : Type} [Field K]

omit [Field K] in
theorem ext16 {a b : Matrix4 K}
    (h00 : a 0 0 = b 0 0) (h01 : a 0 1 = b 0 1) (h02 : a 0 2 = b 0 2) (h03 : a 0 3 = b 0 3)
    (h10 : a 1 0 = b 1 0) (h11 : a 1 1 = b 1 1) (h12 : a 1 2 = b 1 2) (h13 : a 1 3 = b 1 3)
    (h20 : a 2 0 = b 2 0) (h21 : a 2 1 = b 2 1) (h22 : a 2 2 = b 2 2) (h23 : a 2 3 = b 2 3)
    (h30 : a 3 0 = b 3 0) (h31 : a 3 1 = b 3 1) (h32 : a 3 2 = b 3 2) (h33 : a 3 3 = b 3 3) :
    a = b := by
  ext i j
  fin_cases i <;> fin_cases j <;> assumption

theorem mul4_apply (a b : Matrix4 K) (i j : Fin 4) :
    (a * b) i j = a i 0 * b 0 j + a i 1 * b 1 j + a i 2 * b 2 j + a i 3 * b 3 j := by
  rw [Matrix.mul_apply, Fin.sum_univ_four]

theorem inv_eq (m : Matrix4 K) : inv m =
    !![(m 1 1 * m 2 2 - m 1 2 * m 2 1) / det3 m, -(m 0 1 * m 2 2 - m 0 2 * m 2 1) / det3 m,
         (m 0 1 * m 1 2 - m 0 2 * m 1 1) / det3 m,
         -(m 0 3 * ((m 1 1 * m 2 2 - m 1 2 * m 2 1) / det3 m) +
           m 1 3 * (-(m 0 1 * m 2 2 - m 0 2 * m 2 1) / det3 m) +
           m 2 3 * ((m 0 1 * m 1 2 - m 0 2 * m 1 1) / det3 m));
       -(m 1 0 * m 2 2 - m 1 2 * m 2 0) / det3 m, (m 0 0 * m 2 2 - m 0 2 * m 2 0) / det3 m,
         -(m 0 0 * m 1 2 - m 0 2 * m 1 0) / det3 m,
         -(m 0 3 * (-(m 1 0 * m 2 2 - m 1 2 * m 2 0) / det3 m) +
           m 1 3 * ((m 0 0 * m 2 2 - m 0 2 * m 2 0) / det3 m) +
           m 2 3 * (-(m 0 0 * m 1 2 - m 0 2 * m 1 0) / det3 m));
       (m 1 0 * m 2 1 - m 1 1 * m 2 0) / det3 m, -(m 0 0 * m 2 1 - m 0 1 * m 2 0) / det3 m,
         (m 0 0 * m 1 1 - m 0 1 * m 1 0) / det3 m,
         -(m 0 3 * ((m 1 0 * m 2 1 - m 1 1 * m 2 0) / det3 m) +
           m 1 3 * (-(m 0 0 * m 2 1 - m 0 1 * m 2 0) / det3 m) +
           m 2 3 * ((m 0 0 * m 1 1 - m 0 1 * m 1 0) / det3 m));
       0, 0, 0, 1] := rfl

theorem makeTranslation_mul (a b : Cvec3 K) :
    makeTranslation a * makeTranslation b = makeTranslation (a + b) := by
  apply ext16 <;>
    simp only [mul4_apply, makeTranslation, Matrix.of_apply, Matrix.cons_val_zero,
      Matrix.cons_val_one, Matrix.head_cons, Matrix.cons_val_two, Matrix.tail_cons,
      Matrix.cons_val_three, Pi.add_apply] <;>
    ring

theorem makeTranslation_zero : makeTranslation (0 : Cvec3 K) = 1 := by
  apply ext16 <;>
    simp only [makeTranslation, Matrix.of_apply, Matrix.cons_val_zero,
      Matrix.cons_val_one, Matrix.head_cons, Matrix.cons_val_two, Matrix.tail_cons,
      Matrix.cons_val_three, Pi.zero_apply, Matrix.one_apply_eq, Matrix.one_apply_ne, ne_eq,
      Fin.reduceEq, not_false_eq_true]

theorem det3_makeTranslation (a : Cvec3 K) : det3 (makeTranslation a) = 1 := by
  simp only [det3, makeTranslation, Matrix.of_apply, Matrix.cons_val_zero,
      Matrix.cons_val_one, Matrix.head_cons, Matrix.cons_val_two, Matrix.tail_cons,
      Matrix.cons_val_three]
  ring

theorem inv_makeTranslation (a : Cvec3 K) :
    inv (makeTranslation a) = makeTranslation (-a) := by
  rw [inv_eq, det3_makeTranslation]
  apply ext16 <;>
    simp only [makeTranslation, Matrix.of_apply, Matrix.cons_val_zero,
      Matrix.cons_val_one, Matrix.head_cons, Matrix.cons_val_two, Matrix.tail_cons,
      Matrix.cons_val_three, Pi.neg_apply] <;>
    ring

theorem transFact_makeTranslation (a : Cvec3 K) :
    transFact (makeTranslation a) = makeTranslation a := by
  apply ext16 <;>
    simp only [transFact, makeTranslation, Matrix.of_apply, Matrix.cons_val_zero,
      Matrix.cons_val_one, Matrix.head_cons, Matrix.cons_val_two, Matrix.tail_cons,
      Matrix.cons_val_three]

theorem linFact_makeTranslation (a : Cvec3 K) :
    linFact (makeTranslation a) = 1 := by
  apply ext16 <;>
    simp only [linFact, makeTranslation, Matrix.of_apply, Matrix.cons_val_zero,
      Matrix.cons_val_one, Matrix.head_cons, Matrix.cons_val_two, Matrix.tail_cons,
      Matrix.cons_val_three, Matrix.one_apply_eq, Matrix.one_apply_ne, ne_eq,
      Fin.reduceEq, not_false_eq_true]

theorem position_makeTranslation (a : Cvec3 K) :
    position (makeTranslation a) = a := by
  funext i
  fin_cases i <;> rfl

theorem isAffine_mul {a b : Matrix4 K} (ha : isAffine a) (hb : isAffine b) :
    isAffine (a * b) := by
  obtain ⟨a0, a1, a2, a3⟩ := ha
  obtain ⟨b0, b1, b2, b3⟩ := hb
  refine ⟨?_, ?_, ?_, ?_⟩ <;>
    simp only [mul4_apply, a0, a1, a2, a3, b0, b1, b2, b3] <;> ring

theorem linFact_mul {a b : Matrix4 K} (hb : isAffine b) :
    linFact (a * b) = linFact a * linFact b := by
  obtain ⟨b0, b1, b2, b3⟩ := hb
  apply ext16 <;>
    simp only [mul4_apply, linFact, Matrix.of_apply, Matrix.cons_val_zero,
      Matrix.cons_val_one, Matrix.head_cons, Matrix.cons_val_two, Matrix.tail_cons,
      Matrix.cons_val_three, b0, b1, b2, b3] <;>
    ring

theorem isAffine_inv (m : Matrix4 K) : isAffine (inv m) := ⟨rfl, rfl, rfl, rfl⟩

theorem isAffine_one : isAffine (1 : Matrix4 K) := by
  refine ⟨?_, ?_, ?_, ?_⟩ <;> simp

set_option maxHeartbeats 400000 in
theorem mul_inv_of_affine {m : Matrix4 K} (hm : isAffine m) (hd : det3 m ≠ 0) :
    m * inv m = 1 := by
  obtain ⟨m0, m1, m2, m3⟩ := hm
  have hd2 : det3 m = m 0 0 * (m 1 1 * m 2 2 - m 1 2 * m 2 1) +
    m 0 1 * (m 1 2 * m 2 0 - m 1 0 * m 2 2) + m 0 2 * (m 1 0 * m 2 1 - m 1 1 * m 2 0) := rfl
  rw [inv_eq]
  generalize det3 m = d at hd hd2 ⊢
  apply ext16 <;>
    simp only [mul4_apply, Matrix.of_apply,
      Matrix.cons_val_zero, Matrix.cons_val_one, Matrix.head_cons, Matrix.cons_val_two,
      Matrix.tail_cons, Matrix.cons_val_three,
      m0, m1, m2, m3, Matrix.one_apply_eq, Matrix.one_apply_ne, ne_eq, Fin.reduceEq,
      not_false_eq_true] <;>
    field_simp <;> subst hd2 <;> ring

theorem orthonormalLin_entries {m : Matrix4 K} (h : orthonormalLin m) :
    m 0 0 * m 0 0 + m 1 0 * m 1 0 + m 2 0 * m 2 0 = 1 ∧
    m 0 0 * m 0 1 + m 1 0 * m 1 1 + m 2 0 * m 2 1 = 0 ∧
    m 0 0 * m 0 2 + m 1 0 * m 1 2 + m 2 0 * m 2 2 = 0 ∧
    m 0 1 * m 0 1 + m 1 1 * m 1 1 + m 2 1 * m 2 1 = 1 ∧
    m 0 1 * m 0 2 + m 1 1 * m 1 2 + m 2 1 * m 2 2 = 0 ∧
    m 0 2 * m 0 2 + m 1 2 * m 1 2 + m 2 2 * m 2 2 = 1 := by
  unfold orthonormalLin at h
  have e00 := congrFun (congrFun h 0) 0
  have e01 := congrFun (congrFun h 0) 1
  have e02 := congrFun (congrFun h 0) 2
  have e11 := congrFun (congrFun h 1) 1
  have e12 := congrFun (congrFun h 1) 2
  have e22 := congrFun (congrFun h 2) 2
  simp only [mul4_apply, Matrix.transpose_apply, linFact, Matrix.of_apply,
      Matrix.cons_val_zero, Matrix.cons_val_one, Matrix.head_cons, Matrix.cons_val_two,
      Matrix.tail_cons, Matrix.cons_val_three,
      Matrix.one_apply_eq, Matrix.one_apply_ne, ne_eq, Fin.reduceEq,
      not_false_eq_true, mul_zero, add_zero] at e00 e01 e02 e11 e12 e22
  exact ⟨e00, e01, e02, e11, e12, e22⟩

theorem det3_sq_of_orthonormalLin {m : Matrix4 K} (h : orthonormalLin m) :
    det3 m * det3 m = 1 := by
  obtain ⟨e00, e01, e02, e11, e12, e22⟩ := orthonormalLin_entries h
  have key : det3 m * det3 m =
      (m 0 0 * m 0 0 + m 1 0 * m 1 0 + m 2 0 * m 2 0) *
        ((m 0 1 * m 0 1 + m 1 1 * m 1 1 + m 2 1 * m 2 1) *
          (m 0 2 * m 0 2 + m 1 2 * m 1 2 + m 2 2 * m 2 2) -
         (m 0 1 * m 0 2 + m 1 1 * m 1 2 + m 2 1 * m 2 2) *
          (m 0 1 * m 0 2 + m 1 1 * m 1 2 + m 2 1 * m 2 2)) -
      (m 0 0 * m 0 1 + m 1 0 * m 1 1 + m 2 0 * m 2 1) *
        ((m 0 0 * m 0 1 + m 1 0 * m 1 1 + m 2 0 * m 2 1) *
          (m 0 2 * m 0 2 + m 1 2 * m 1 2 + m 2 2 * m 2 2) -
         (m 0 1 * m 0 2 + m 1 1 * m 1 2 + m 2 1 * m 2 2) *
          (m 0 0 * m 0 2 + m 1 0 * m 1 2 + m 2 0 * m 2 2)) +
      (m 0 0 * m 0 2 + m 1 0 * m 1 2 + m 2 0 * m 2 2) *
        ((m 0 0 * m 0 1 + m 1 0 * m 1 1 + m 2 0 * m 2 1) *
          (m 0 1 * m 0 2 + m 1 1 * m 1 2 + m 2 1 * m 2 2) -
         (m 0 1 * m 0 1 + m 1 1 * m 1 1 + m 2 1 * m 2 1) *
          (m 0 0 * m 0 2 + m 1 0 * m 1 2 + m 2 0 * m 2 2)) := by
    unfold det3
    ring
  rw [key, e00, e01, e02, e11, e12, e22]
  ring

theorem det3_ne_zero_of_orthonormalLin {m : Matrix4 K} (h : orthonormalLin m) :
    det3 m ≠ 0 := by
  intro h0
  have := det3_sq_of_orthonormalLin h
  rw [h0] at this
  simp at this

theorem linFact_one : linFact (1 : Matrix4 K) = 1 := by
  apply ext16 <;>
    simp only [linFact, Matrix.of_apply,
      Matrix.cons_val_zero, Matrix.cons_val_one, Matrix.head_cons, Matrix.cons_val_two,
      Matrix.tail_cons, Matrix.cons_val_three,
      Matrix.one_apply_eq, Matrix.one_apply_ne, ne_eq, Fin.reduceEq, not_false_eq_true]

theorem isRigid_mul {a b : Matrix4 K} (ha : isRigid a) (hb : isRigid b) :
    isRigid (a * b) := by
  refine ⟨isAffine_mul ha.1 hb.1, ?_⟩
  have h1 : (linFact a).transpose * linFact a = 1 := ha.2
  have h2 : (linFact b).transpose * linFact b = 1 := hb.2
  unfold orthonormalLin
  rw [linFact_mul hb.1, Matrix.transpose_mul]
  calc (linFact b).transpose * (linFact a).transpose * (linFact a * linFact b)
      = (linFact b).transpose * ((linFact a).transpose * linFact a) * linFact b := by
        simp only [Matrix.mul_assoc]
    _ = 1 := by rw [h1, Matrix.mul_one, h2]

theorem isRigid_inv {m : Matrix4 K} (hm : isRigid m) : isRigid (inv m) := by
  refine ⟨isAffine_inv m, ?_⟩
  have h1 : (linFact m).transpose * linFact m = 1 := hm.2
  have h2 : linFact m * linFact (inv m) = 1 := by
    rw [← linFact_mul (isAffine_inv m),
      mul_inv_of_affine hm.1 (det3_ne_zero_of_orthonormalLin hm.2), linFact_one]
  have h3 : linFact (inv m) = (linFact m).transpose := by
    calc linFact (inv m) = ((linFact m).transpose * linFact m) * linFact (inv m) := by
          rw [h1, Matrix.one_mul]
      _ = (linFact m).transpose := by rw [Matrix.mul_assoc, h2, Matrix.mul_one]
  unfold orthonormalLin
  rw [h3, Matrix.transpose_transpose]
  exact (Matrix.mul_eq_one_comm).mp h1

theorem isRigid_makeXRotationCS {c s : K} (h : c * c + s * s = 1) :
    isRigid (makeXRotationCS c s) := by
  refine ⟨⟨rfl, rfl, rfl, rfl⟩, ?_⟩
  unfold orthonormalLin
  apply ext16 <;>
    simp only [mul4_apply, Matrix.transpose_apply, linFact, makeXRotationCS, Matrix.of_apply,
      Matrix.cons_val_zero, Matrix.cons_val_one, Matrix.head_cons,
      Matrix.cons_val_two, Matrix.tail_cons, Matrix.cons_val_three,
      Matrix.one_apply_eq, Matrix.one_apply_ne, ne_eq, Fin.reduceEq,
      not_false_eq_true] <;>
    first | linear_combination h | ring

theorem isRigid_makeYRotationCS {c s : K} (h : c * c + s * s = 1) :
    isRigid (makeYRotationCS c s) := by
  refine ⟨⟨rfl, rfl, rfl, rfl⟩, ?_⟩
  unfold orthonormalLin
  apply ext16 <;>
    simp only [mul4_apply, Matrix.transpose_apply, linFact, makeYRotationCS, Matrix.of_apply,
      Matrix.cons_val_zero, Matrix.cons_val_one, Matrix.head_cons,
      Matrix.cons_val_two, Matrix.tail_cons, Matrix.cons_val_three,
      Matrix.one_apply_eq, Matrix.one_apply_ne, ne_eq, Fin.reduceEq,
      not_false_eq_true] <;>
    first | linear_combination h | ring

theorem isRigid_makeZRotationCS {c s : K} (h : c * c + s * s = 1) :
    isRigid (makeZRotationCS c s) := by
  refine ⟨⟨rfl, rfl, rfl, rfl⟩, ?_⟩
  unfold orthonormalLin
  apply ext16 <;>
    simp only [mul4_apply, Matrix.transpose_apply, linFact, makeZRotationCS, Matrix.of_apply,
      Matrix.cons_val_zero, Matrix.cons_val_one, Matrix.head_cons,
      Matrix.cons_val_two, Matrix.tail_cons, Matrix.cons_val_three,
      Matrix.one_apply_eq, Matrix.one_apply_ne, ne_eq, Fin.reduceEq,
      not_false_eq_true] <;>
    first | linear_combination h | ring

theorem isRigid_makeTranslation (a : Cvec3 K) : isRigid (makeTranslation a) := by
  refine ⟨⟨rfl, rfl, rfl, rfl⟩, ?_⟩
  unfold orthonormalLin
  rw [linFact_makeTranslation, Matrix.transpose_one, Matrix.mul_one]

theorem makeXRotationCS_one_zero : makeXRotationCS (1 : K) 0 = 1 := by
  apply ext16 <;>
    simp only [makeXRotationCS, Matrix.of_apply, Matrix.cons_val_zero,
      Matrix.cons_val_one, Matrix.head_cons, Matrix.cons_val_two, Matrix.tail_cons,
      Matrix.cons_val_three, Matrix.one_apply_eq, Matrix.one_apply_ne, ne_eq,
      Fin.reduceEq, not_false_eq_true, neg_zero]

theorem makeYRotationCS_one_zero : makeYRotationCS (1 : K) 0 = 1 := by
  apply ext16 <;>
    simp only [makeYRotationCS, Matrix.of_apply, Matrix.cons_val_zero,
      Matrix.cons_val_one, Matrix.head_cons, Matrix.cons_val_two, Matrix.tail_cons,
      Matrix.cons_val_three, Matrix.one_apply_eq, Matrix.one_apply_ne, ne_eq,
      Fin.reduceEq, not_false_eq_true, neg_zero]

theorem makeZRotationCS_one_zero : makeZRotationCS (1 : K) 0 = 1 := by
  apply ext16 <;>
    simp only [makeZRotationCS, Matrix.of_apply, Matrix.cons_val_zero,
      Matrix.cons_val_one, Matrix.head_cons, Matrix.cons_val_two, Matrix.tail_cons,
      Matrix.cons_val_three, Matrix.one_apply_eq, Matrix.one_apply_ne, ne_eq,
      Fin.reduceEq, not_false_eq_true, neg_zero]

/-- Multiplying on the right by a matrix whose fourth column is `0 0 0 1` (a matrix
without translation) keeps the translation column. -/
theorem position_mul_of_lastCol (a : Matrix4 K) {r : Matrix4 K}
    (h0 : r 0 3 = 0) (h1 : r 1 3 = 0) (h2 : r 2 3 = 0) (h3 : r 3 3 = 1) :
    position (a * r) = position a := by
  funext i
  fin_cases i <;>
    simp only [position, mul4_apply, h0, h1, h2, h3, Fin.zero_eta, Fin.mk_one,
      Fin.reduceFinMk, Matrix.cons_val_zero, Matrix.cons_val_one, Matrix.head_cons,
      Matrix.cons_val_two, Matrix.tail_cons] <;>
    ring

theorem transFact_eq_of_position {a b : Matrix4 K} (h : position a = position b) :
    transFact a = transFact b := by
  have e0 : a 0 3 = b 0 3 := congrFun h 0
  have e1 : a 1 3 = b 1 3 := congrFun h 1
  have e2 : a 2 3 = b 2 3 := congrFun h 2
  unfold transFact
  rw [e0, e1, e2]

/-- The four assignments to `newMatrix` in `drawScene` build the translation by
`toSphere`. -/
theorem setEntry_newMatrix (t : Cvec3 K) :
    setEntry (setEntry (setEntry (setEntry (1 : Matrix4 K) 0 3 (t 0)) 1 3 (t 1)) 2 3 (t 2))
      3 3 1 = makeTranslation t := by
  apply ext16 <;>
    simp only [setEntry, makeTranslation, Matrix.of_apply, Matrix.cons_val_zero,
      Matrix.cons_val_one, Matrix.head_cons, Matrix.cons_val_two, Matrix.tail_cons,
      Matrix.cons_val_three, Matrix.one_apply_eq, Matrix.one_apply_ne, ne_eq,
      Fin.reduceEq, not_false_eq_true, and_self, and_true, and_false, true_and, false_and,
      if_true, if_false]

theorem linFact_makeScale_mul_transFact (v : Cvec3 K) (x : Matrix4 K) :
    linFact (makeScale v * transFact x) = makeScale v := by
  apply ext16 <;>
    simp only [mul4_apply, linFact, makeScale, transFact, Matrix.of_apply,
      Matrix.cons_val_zero, Matrix.cons_val_one, Matrix.head_cons, Matrix.cons_val_two,
      Matrix.tail_cons, Matrix.cons_val_three] <;>
    ring

theorem isAffine_makeScale_mul_transFact (v : Cvec3 K) (x : Matrix4 K) :
    isAffine (makeScale v * transFact x) := by
  refine ⟨?_, ?_, ?_, ?_⟩ <;>
    simp only [mul4_apply, makeScale, transFact, Matrix.of_apply,
      Matrix.cons_val_zero, Matrix.cons_val_one, Matrix.head_cons, Matrix.cons_val_two,
      Matrix.tail_cons, Matrix.cons_val_three] <;>
    ring

theorem position_makeScale_mul_makeTranslation (v t : Cvec3 K) :
    position (makeScale v * makeTranslation t) = ![v 0 * t 0, v 1 * t 1, v 2 * t 2] := by
  funext i
  fin_cases i <;>
    simp only [position, mul4_apply, makeScale, makeTranslation, Matrix.of_apply,
      Fin.zero_eta, Fin.mk_one, Fin.reduceFinMk,
      Matrix.cons_val_zero, Matrix.cons_val_one, Matrix.head_cons, Matrix.cons_val_two,
      Matrix.tail_cons, Matrix.cons_val_three] <;>
    ring

end PrimitiveLemmas

/-! ## Facts about the rotations by an angle and about `drawScene` -/

theorem cos_mul_self_add_sin_mul_self (x : ℝ) :
    Real.cos x * Real.cos x + Real.sin x * Real.sin x = 1 := by
  have h := Real.cos_sq_add_sin_sq x
  rw [sq, sq] at h
  exact h

theorem isRigid_makeXRotation (ang : ℝ) : isRigid (makeXRotation ang) :=
  isRigid_makeXRotationCS (cos_mul_self_add_sin_mul_self _)

theorem isRigid_makeYRotation (ang : ℝ) : isRigid (makeYRotation ang) :=
  isRigid_makeYRotationCS (cos_mul_self_add_sin_mul_self _)

theorem isRigid_makeZRotation (ang : ℝ) : isRigid (makeZRotation ang) :=
  isRigid_makeZRotationCS (cos_mul_self_add_sin_mul_self _)

theorem makeXRotation_zero : makeXRotation 0 = 1 := by
  unfold makeXRotation
  rw [zero_mul, zero_div, Real.cos_zero, Real.sin_zero, makeXRotationCS_one_zero]

theorem makeYRotation_zero : makeYRotation 0 = 1 := by
  unfold makeYRotation
  rw [zero_mul, zero_div, Real.cos_zero, Real.sin_zero, makeYRotationCS_one_zero]

theorem makeZRotation_zero : makeZRotation 0 = 1 := by
  unfold makeZRotation
  rw [zero_mul, zero_div, Real.cos_zero, Real.sin_zero, makeZRotationCS_one_zero]

theorem quarter_turn_angle : (0.25 : ℝ) * 360 * CS150_PI / 180 = Real.pi / 2 := by
  unfold CS150_PI
  ring

theorem makeXRotation_quarter : makeXRotation (0.25 * 360) = makeXRotationCS 0 1 := by
  unfold makeXRotation
  rw [quarter_turn_angle, Real.cos_pi_div_two, Real.sin_pi_div_two]

theorem makeYRotation_quarter : makeYRotation (0.25 * 360) = makeYRotationCS 0 1 := by
  unfold makeYRotation
  rw [quarter_turn_angle, Real.cos_pi_div_two, Real.sin_pi_div_two]

theorem makeZRotation_quarter : makeZRotation (0.25 * 360) = makeZRotationCS 0 1 := by
  unfold makeZRotation
  rw [quarter_turn_angle, Real.cos_pi_div_two, Real.sin_pi_div_two]

theorem drawScene_obj0 (s : State ℝ) :
    (drawScene s).g_objectRbt 0 =
      s.g_objectRbt 0 * makeZRotation (s.g_animIncrement * 360) *
        makeXRotation (s.g_animIncrement * 360) := rfl

theorem drawScene_obj1 (s : State ℝ) :
    (drawScene s).g_objectRbt 1 =
      (drawScene s).g_objectRbt 0 * makeYRotation (s.g_animIncrement * 360) *
        inv ((drawScene s).g_objectRbt 0) * s.g_objectRbt 1 := rfl

theorem drawScene_obj2 (s : State ℝ) :
    (drawScene s).g_objectRbt 2 =
      makeScale ![0.4, 0.4, 0.4] *
        transFact (transFact (s.g_objectRbt 2) *
          makeTranslation (position ((drawScene s).g_objectRbt 1) - position (s.g_objectRbt 2)) *
          inv ((drawScene s).g_objectRbt 1)) := by
  rw [← setEntry_newMatrix]
  rfl

/-! ## Scene update: helper lemmas -/

theorem drawScene_translations (s : State ℝ) (a b c : Cvec3 ℝ) (hinc : s.g_animIncrement = 0)
    (h0 : s.g_objectRbt 0 = makeTranslation a) (h1 : s.g_objectRbt 1 = makeTranslation b)
    (h2 : s.g_objectRbt 2 = makeTranslation c) :
    (drawScene s).g_objectRbt 1 = makeTranslation b ∧
    (drawScene s).g_objectRbt 2 = makeScale ![0.4, 0.4, 0.4] * makeTranslation 0 := by
  have e1 : (drawScene s).g_objectRbt 1 = makeTranslation b := by
    rw [drawScene_obj1, drawScene_obj0, hinc, zero_mul, makeZRotation_zero,
      makeXRotation_zero, makeYRotation_zero, h0, h1, Matrix.mul_one, Matrix.mul_one,
      Matrix.mul_one, inv_makeTranslation, makeTranslation_mul, makeTranslation_mul,
      add_neg_cancel, zero_add]
  refine ⟨e1, ?_⟩
  rw [drawScene_obj2, e1, h2, transFact_makeTranslation, position_makeTranslation,
    position_makeTranslation, inv_makeTranslation, makeTranslation_mul, makeTranslation_mul,
    add_sub_cancel, add_neg_cancel, transFact_makeTranslation]

theorem sqrt_25 : Real.sqrt 25 = 5 := by
  rw [show (25 : ℝ) = 5 ^ 2 by norm_num]
  exact Real.sqrt_sq (by norm_num)

theorem chaseRun_reachable : Reachable chaseRun :=
  Reachable.idle (Reachable.motion _ _ (Reachable.mouse _ _ _ _
    (Reachable.keyboard _ (Reachable.keyboard _ Reachable.init))))

theorem dragged_position :
    (![4, 3, 0] : Cvec3 ℝ) + (fun i => (![((-200 - 500 : Int) : ℝ),
      (((512 : Int) - 0 - 1 - (512 - 0 - 1) : Int) : ℝ), 0] : Cvec3 ℝ) i * 0.01) =
      ![-3, 3, 0] := by
  funext i
  fin_cases i <;> norm_num

theorem chaseRun_fields :
    chaseRun.g_animIncrement = 0 ∧
    chaseRun.g_objectRbt 0 = makeTranslation ![0, 4, 0] ∧
    chaseRun.g_objectRbt 1 = makeTranslation ![-4, 3, 0] ∧
    chaseRun.g_objectRbt 2 = makeTranslation ![-3, 3, 0] := by
  have hk : keyboard 'o' (keyboard 'o' (initState : State ℝ)) =
      { (initState : State ℝ) with g_objToManip := 2 } := by
    simp [keyboard]
    rfl
  have hm : motionM false true false ((-200 - 500 : Int) : ℝ)
      (((512 : Int) - 0 - 1 - (512 - 0 - 1) : Int) : ℝ) =
      makeTranslation (fun i => (![((-200 - 500 : Int) : ℝ),
        (((512 : Int) - 0 - 1 - (512 - 0 - 1) : Int) : ℝ), 0] : Cvec3 ℝ) i * 0.01) := by
    simp [motionM]
  have h2 : chaseRun.g_objectRbt =
      Function.update (initState : State ℝ).g_objectRbt 2 (makeTranslation ![-3, 3, 0]) := by
    unfold chaseRun
    rw [hk]
    show Function.update (initState : State ℝ).g_objectRbt 2
      (transFact (makeTranslation ![4, 3, 0]) * linFact (makeTranslation ![0, 3.25, 10]) *
        motionM false true false ((-200 - 500 : Int) : ℝ)
          (((512 : Int) - 0 - 1 - (512 - 0 - 1) : Int) : ℝ) *
        inv (transFact (makeTranslation ![4, 3, 0]) * linFact (makeTranslation ![0, 3.25, 10])) *
        makeTranslation ![4, 3, 0]) = _
    rw [hm, transFact_makeTranslation, linFact_makeTranslation, Matrix.mul_one,
      Matrix.mul_assoc, inv_makeTranslation, makeTranslation_mul (-![4, 3, 0]) ![4, 3, 0],
      neg_add_cancel, makeTranslation_zero, Matrix.mul_one, makeTranslation_mul,
      dragged_position]
  refine ⟨?_, ?_, ?_, ?_⟩
  · show (initState : State ℝ).g_animSpeed * ((0 : Int) : ℝ) / 1000 = 0
    simp
  · rw [h2]
    rfl
  · rw [h2]
    rfl
  · rw [h2, Function.update_same]

/-- The orbit scenario at a quarter turn, under either sign convention of the rotation
makers (`s = 1` is the one modelled here, `s = -1` the opposite one): object 1 ends up
at `(0, 1, 0)`. -/
theorem updateObjects_quarter_orbit (s : ℝ) (hs : s * s = 1) (obj : Fin 3 → Matrix4 ℝ)
    (h0 : obj 0 = 1) (h1 : obj 1 = makeTranslation ![1, 0, 0]) :
    position (updateObjects (makeXRotationCS 0 s) (makeYRotationCS 0 s) (makeZRotationCS 0 s)
      obj 1) = ![0, 1, 0] := by
  have hz : (1 : Matrix4 ℝ) * makeZRotationCS 0 s * makeXRotationCS 0 s =
      !![0, 0, s * s, 0; s, 0, 0, 0; 0, s, 0, 0; 0, 0, 0, 1] := by
    rw [Matrix.one_mul]
    apply ext16 <;>
      simp only [mul4_apply, makeZRotationCS, makeXRotationCS, Matrix.of_apply,
        Matrix.cons_val_zero, Matrix.cons_val_one, Matrix.head_cons, Matrix.cons_val_two,
        Matrix.tail_cons, Matrix.cons_val_three] <;>
      ring
  have hi : inv (!![0, 0, s * s, 0; s, 0, 0, 0; 0, s, 0, 0; 0, 0, 0, 1] : Matrix4 ℝ) =
      !![0, s, 0, 0; 0, 0, s, 0; 1, 0, 0, 0; 0, 0, 0, 1] := by
    rw [inv_eq]
    have hd : det3 (!![0, 0, s * s, 0; s, 0, 0, 0; 0, s, 0, 0; 0, 0, 0, 1] : Matrix4 ℝ) = 1 := by
      simp only [det3, Matrix.of_apply,
        Matrix.cons_val_zero, Matrix.cons_val_one, Matrix.head_cons, Matrix.cons_val_two,
        Matrix.tail_cons, Matrix.cons_val_three]
      linear_combination (s * s + 1) * hs
    rw [hd]
    apply ext16 <;>
      simp only [Matrix.of_apply,
        Matrix.cons_val_zero, Matrix.cons_val_one, Matrix.head_cons, Matrix.cons_val_two,
        Matrix.tail_cons, Matrix.cons_val_three] <;>
      first
        | ring1
        | linear_combination hs
        | linear_combination s * hs
  show position (obj 0 * makeZRotationCS 0 s * makeXRotationCS 0 s *
    makeYRotationCS 0 s * inv (obj 0 * makeZRotationCS 0 s * makeXRotationCS 0 s) *
    obj 1) = ![0, 1, 0]
  rw [h0, h1, hz, hi]
  funext i
  fin_cases i <;>
    simp only [position, mul4_apply, makeYRotationCS, makeTranslation, Matrix.of_apply,
      Fin.zero_eta, Fin.mk_one, Fin.reduceFinMk,
      Matrix.cons_val_zero, Matrix.cons_val_one, Matrix.head_cons, Matrix.cons_val_two,
      Matrix.tail_cons, Matrix.cons_val_three] <;>
    first
      | ring1
      | linear_combination hs

theorem drawScene_quarter_orbit (s : State ℝ) (hinc : s.g_animIncrement = 0.25)
    (h0 : s.g_objectRbt 0 = 1) (h1 : s.g_objectRbt 1 = makeTranslation ![1, 0, 0]) :
    position ((drawScene s).g_objectRbt 1) = ![0, 1, 0] := by
  have h := updateObjects_quarter_orbit 1 (by norm_num) s.g_objectRbt h0 h1
  show position (updateObjects (makeXRotation (s.g_animIncrement * 360))
    (makeYRotation (s.g_animIncrement * 360)) (makeZRotation (s.g_animIncrement * 360))
    s.g_objectRbt 1) = ![0, 1, 0]
  rw [hinc, makeXRotation_quarter, makeYRotation_quarter, makeZRotation_quarter]
  exact h

/-! ## Camera and interaction: helper lemmas -/

theorem atan2_of_pos {y x : ℝ} (hx : 0 < x) :
    -(Real.pi / 2) < atan2 y x ∧ atan2 y x < Real.pi / 2 ∧ Real.tan (atan2 y x) = y / x := by
  have habs : |Complex.arg ⟨x, y⟩| < Real.pi / 2 :=
    Complex.abs_arg_lt_pi_div_two_iff.mpr (Or.inl hx)
  have ht : Real.tan (Complex.arg ⟨x, y⟩) = y / x := Complex.tan_arg ⟨x, y⟩
  exact ⟨(abs_lt.mp habs).1, (abs_lt.mp habs).2, ht⟩

theorem updateFrustFovY_wide (s : State ℝ) (h : s.g_windowWidth ≥ s.g_windowHeight) :
    (updateFrustFovY s).g_frustFovY = s.g_frustMinFov := by
  unfold updateFrustFovY
  rw [if_pos h]

theorem updateFrustFovY_tall (s : State ℝ) (h : s.g_windowWidth < s.g_windowHeight) :
    (updateFrustFovY s).g_frustFovY =
      atan2 (Real.sin (s.g_frustMinFov * (0.5 * CS150_PI / 180)) * (s.g_windowHeight : ℝ) /
          (s.g_windowWidth : ℝ))
        (Real.cos (s.g_frustMinFov * (0.5 * CS150_PI / 180))) / (0.5 * CS150_PI / 180) := by
  unfold updateFrustFovY
  rw [if_neg (not_le.mpr h)]

theorem rotation_product_no_depth (a b : ℝ) :
    (makeXRotation a * makeYRotation b) 2 3 = 0 := by
  simp only [mul4_apply, makeXRotation, makeYRotation, makeXRotationCS, makeYRotationCS,
    Matrix.of_apply, Matrix.cons_val_zero, Matrix.cons_val_one, Matrix.head_cons,
    Matrix.cons_val_two, Matrix.tail_cons, Matrix.cons_val_three]
  ring

theorem scaled_depth_vector (dy : ℝ) :
    (fun i => (![0, 0, -dy] : Cvec3 ℝ) i * 0.01) = ![0, 0, -dy * 0.01] := by
  funext i
  fin_cases i <;> simp

theorem reachable_clickDown {s : State ℝ} (hr : Reachable s) :
    s.g_mouseClickDown =
      (s.g_mouseLClickButton || s.g_mouseRClickButton || s.g_mouseMClickButton) := by
  induction hr with
  | init => rfl
  | mouse button state x y _ _ => rfl
  | motion x y _ ih => exact ih
  | idle _ ih => exact ih
  | display elapsed _ ih => exact ih
  | reshape w h _ ih =>
    unfold reshape updateFrustFovY
    split_ifs <;> exact ih
  | keyboard key _ ih =>
    unfold keyboard
    split_ifs <;> exact ih

theorem motion_after_left_down (x y : Int) :
    (mouse GLUT_LEFT_BUTTON GLUT_DOWN x y (initState : State ℝ)).g_objToManip = 0 ∧
    (motion (x + 10) y (mouse GLUT_LEFT_BUTTON GLUT_DOWN x y initState)).g_objectRbt 0 =
      makeTranslation ![0, 4, 0] * makeYRotation 10 := by
  refine ⟨rfl, ?_⟩
  have hdx : ((x + 10 - x : Int) : ℝ) = 10 := by
    push_cast
    ring
  have hdy : (((512 : Int) - y - 1 - (512 - y - 1) : Int) : ℝ) = 0 := by
    push_cast
    ring
  show Function.update (initState : State ℝ).g_objectRbt 0
      (transFact (makeTranslation ![0, 4, 0]) * linFact (makeTranslation ![0, 3.25, 10]) *
        motionM true false false ((x + 10 - x : Int) : ℝ)
          (((512 : Int) - y - 1 - (512 - y - 1) : Int) : ℝ) *
        inv (transFact (makeTranslation ![0, 4, 0]) * linFact (makeTranslation ![0, 3.25, 10])) *
        makeTranslation ![0, 4, 0]) 0 = _
  rw [Function.update_same, hdx, hdy, transFact_makeTranslation, linFact_makeTranslation,
    Matrix.mul_one]
  have hm : motionM true false false 10 0 = makeYRotation 10 := by
    simp [motionM, makeXRotation_zero]
  rw [hm, Matrix.mul_assoc, inv_makeTranslation, makeTranslation_mul, neg_add_cancel,
    makeTranslation_zero, Matrix.mul_one]

theorem makeYRotation_ten_entry : makeYRotation 10 0 2 = Real.sin (Real.pi / 18) := by
  unfold makeYRotation makeYRotationCS CS150_PI
  have : (10 : ℝ) * Real.pi / 180 = Real.pi / 18 := by ring
  rw [this]
  rfl

/-! ## Chase and orbit: further helper lemmas -/

section TransformLemmas

variable {K : Type} [Field K]

theorem transFact_eq_makeTranslation (m : Matrix4 K) :
    transFact m = makeTranslation (position m) := rfl

theorem inv_mul_of_rigid {m : Matrix4 K} (hm : isRigid m) : inv m * m = 1 :=
  Matrix.mul_eq_one_comm.mp (mul_inv_of_affine hm.1 (det3_ne_zero_of_orthonormalLin hm.2))

theorem isRigid_one : isRigid (1 : Matrix4 K) := by
  rw [← makeTranslation_zero]
  exact isRigid_makeTranslation 0

/-- A rigid transform keeps the squared distance between the positions of two matrices
whose translation columns are points (homogeneous coordinate `1`). -/
theorem dist2_mul_of_rigid {m a b : Matrix4 K} (hm : isRigid m) (ha : a 3 3 = 1)
    (hb : b 3 3 = 1) :
    dist2 (position (m * a)) (position (m * b)) = dist2 (position a) (position b) := by
  obtain ⟨e00, e01, e02, e11, e12, e22⟩ := orthonormalLin_entries hm.2
  simp only [dist2, position, mul4_apply, ha, hb, Matrix.cons_val_zero, Matrix.cons_val_one,
    Matrix.head_cons, Matrix.cons_val_two, Matrix.tail_cons]
  linear_combination (a 0 3 - b 0 3) ^ 2 * e00 +
    2 * (a 0 3 - b 0 3) * (a 1 3 - b 1 3) * e01 +
    2 * (a 0 3 - b 0 3) * (a 2 3 - b 2 3) * e02 +
    (a 1 3 - b 1 3) ^ 2 * e11 +
    2 * (a 1 3 - b 1 3) * (a 2 3 - b 2 3) * e12 +
    (a 2 3 - b 2 3) ^ 2 * e22

end TransformLemmas

/-- The orbit expression of `drawScene` keeps the squared distance to the pivot. -/
theorem orbit_dist2 (T0' T1 : Matrix4 ℝ) (theta : ℝ) (h0 : isRigid T0') (h1 : T1 3 3 = 1) :
    dist2 (position (T0' * makeYRotation theta * inv T0' * T1)) (position T0') =
      dist2 (position T1) (position T0') := by
  have hM : isRigid (T0' * makeYRotation theta * inv T0') :=
    isRigid_mul (isRigid_mul h0 (isRigid_makeYRotation theta)) (isRigid_inv h0)
  have hfix : position (T0' * makeYRotation theta * inv T0' * T0') = position T0' := by
    rw [Matrix.mul_assoc (T0' * makeYRotation theta), inv_mul_of_rigid h0, Matrix.mul_one]
    exact position_mul_of_lastCol T0' rfl rfl rfl rfl
  have h := dist2_mul_of_rigid hM h1 h0.1.2.2.2
  rw [hfix] at h
  exact h

theorem isRigid_motionM (l r mid : Bool) (dx dy : ℝ) : isRigid (motionM l r mid dx dy) := by
  unfold motionM
  split_ifs
  · exact isRigid_mul (isRigid_makeXRotation _) (isRigid_makeYRotation _)
  · exact isRigid_makeTranslation _
  · exact isRigid_makeTranslation _
  · exact isRigid_one

/-- The factor `a * m * inv(a)` that `motion` applies to the selected object is rigid
when the eye transform is a pure translation. -/
theorem motion_pivot_rigid (eye : Matrix4 ℝ) (t : Cvec3 ℝ) (he : eye = makeTranslation t)
    (m T : Matrix4 ℝ) (hm : isRigid m) :
    isRigid (transFact T * linFact eye * m * inv (transFact T * linFact eye)) := by
  subst he
  have ha : isRigid (transFact T * linFact (makeTranslation t)) := by
    rw [linFact_makeTranslation, Matrix.mul_one, transFact_eq_makeTranslation]
    exact isRigid_makeTranslation _
  exact isRigid_mul (isRigid_mul ha hm) (isRigid_inv ha)

/-- Multiplying one of the three object transforms by a rigid factor keeps objects 0 and
1 rigid and object 2 affine. -/
theorem update_keeps_transforms (f : Fin 3 → Matrix4 ℝ) (k : Fin 3) (p : Matrix4 ℝ)
    (hp : isRigid p) (r0 : isRigid (f 0)) (r1 : isRigid (f 1)) (a2 : isAffine (f 2)) :
    isRigid (Function.update f k (p * f k) 0) ∧ isRigid (Function.update f k (p * f k) 1) ∧
    isAffine (Function.update f k (p * f k) 2) := by
  fin_cases k
  · show isRigid (Function.update f 0 (p * f 0) 0) ∧ isRigid (Function.update f 0 (p * f 0) 1) ∧
      isAffine (Function.update f 0 (p * f 0) 2)
    rw [Function.update_same, Function.update_noteq (by decide),
      Function.update_noteq (by decide)]
    exact ⟨isRigid_mul hp r0, r1, a2⟩
  · show isRigid (Function.update f 1 (p * f 1) 0) ∧ isRigid (Function.update f 1 (p * f 1) 1) ∧
      isAffine (Function.update f 1 (p * f 1) 2)
    rw [Function.update_same, Function.update_noteq (by decide),
      Function.update_noteq (by decide)]
    exact ⟨r0, isRigid_mul hp r1, a2⟩
  · show isRigid (Function.update f 2 (p * f 2) 0) ∧ isRigid (Function.update f 2 (p * f 2) 1) ∧
      isAffine (Function.update f 2 (p * f 2) 2)
    rw [Function.update_same, Function.update_noteq (by decide),
      Function.update_noteq (by decide)]
    exact ⟨r0, r1, isAffine_mul hp.1 a2⟩

theorem drawScene_keeps_rigid (s : State ℝ) (h0 : isRigid (s.g_objectRbt 0))
    (h1 : isRigid (s.g_objectRbt 1)) :
    isRigid ((drawScene s).g_objectRbt 0) ∧ isRigid ((drawScene s).g_objectRbt 1) ∧
    isAffine ((drawScene s).g_objectRbt 2) := by
  have r0 : isRigid ((drawScene s).g_objectRbt 0) := by
    rw [drawScene_obj0]
    exact isRigid_mul (isRigid_mul h0 (isRigid_makeZRotation _)) (isRigid_makeXRotation _)
  refine ⟨r0, ?_, ?_⟩
  · rw [drawScene_obj1]
    exact isRigid_mul (isRigid_mul (isRigid_mul r0 (isRigid_makeYRotation _)) (isRigid_inv r0)) h1
  · rw [drawScene_obj2]
    exact isAffine_makeScale_mul_transFact _ _

/-- In every reachable state the eye transform is the initial translation, the
transforms of objects 0 and 1 are rigid and the transform of object 2 is affine. -/
theorem reachable_transforms {s : State ℝ} (hr : Reachable s) :
    s.g_eyeRbt = makeTranslation ![0, 3.25, 10] ∧ isRigid (s.g_objectRbt 0) ∧
    isRigid (s.g_objectRbt 1) ∧ isAffine (s.g_objectRbt 2) := by
  induction hr with
  | init =>
    exact ⟨rfl, isRigid_makeTranslation _, isRigid_makeTranslation _,
      (isRigid_makeTranslation _).1⟩
  | mouse button state x y _ ih => exact ih
  | @motion x y s _ ih =>
    obtain ⟨he, r0, r1, a2⟩ := ih
    refine ⟨he, ?_⟩
    have hobj : (motion x y s).g_objectRbt =
        if s.g_mouseClickDown then
          Function.update s.g_objectRbt s.g_objToManip
            (transFact (s.g_objectRbt s.g_objToManip) * linFact s.g_eyeRbt *
              motionM s.g_mouseLClickButton s.g_mouseRClickButton s.g_mouseMClickButton
                ((x - s.g_mouseClickX : Int) : ℝ)
                ((s.g_windowHeight - y - 1 - s.g_mouseClickY : Int) : ℝ) *
              inv (transFact (s.g_objectRbt s.g_objToManip) * linFact s.g_eyeRbt) *
              s.g_objectRbt s.g_objToManip)
        else s.g_objectRbt := rfl
    rw [hobj]
    split_ifs
    · exact update_keeps_transforms s.g_objectRbt s.g_objToManip _
        (motion_pivot_rigid s.g_eyeRbt _ he _ (s.g_objectRbt s.g_objToManip)
          (isRigid_motionM _ _ _ _ _)) r0 r1 a2
    · exact ⟨r0, r1, a2⟩
  | idle _ ih => exact ih
  | @display elapsed s _ ih =>
    obtain ⟨he, r0, r1, _⟩ := ih
    exact ⟨he, drawScene_keeps_rigid s r0 r1⟩
  | reshape w h _ ih =>
    unfold reshape updateFrustFovY
    split_ifs <;> exact ih
  | keyboard key _ ih =>
    unfold keyboard
    split_ifs <;> exact ih

theorem catchRun_reachable : Reachable catchRun :=
  Reachable.idle (Reachable.motion _ _ (Reachable.mouse _ _ _ _
    (Reachable.keyboard _ (Reachable.keyboard _ Reachable.init))))

theorem caught_position :
    (![4, 3, 0] : Cvec3 ℝ) + (fun i => (![((-300 - 500 : Int) : ℝ),
      (((512 : Int) - 0 - 1 - (512 - 0 - 1) : Int) : ℝ), 0] : Cvec3 ℝ) i * 0.01) =
      ![-4, 3, 0] := by
  funext i
  fin_cases i <;> norm_num

theorem catchRun_fields :
    catchRun.g_animIncrement = 0 ∧
    catchRun.g_objectRbt 0 = makeTranslation ![0, 4, 0] ∧
    catchRun.g_objectRbt 1 = makeTranslation ![-4, 3, 0] ∧
    catchRun.g_objectRbt 2 = makeTranslation ![-4, 3, 0] := by
  have hk : keyboard 'o' (keyboard 'o' (initState : State ℝ)) =
      { (initState : State ℝ) with g_objToManip := 2 } := by
    simp [keyboard]
    rfl
  have hm : motionM false true false ((-300 - 500 : Int) : ℝ)
      (((512 : Int) - 0 - 1 - (512 - 0 - 1) : Int) : ℝ) =
      makeTranslation (fun i => (![((-300 - 500 : Int) : ℝ),
        (((512 : Int) - 0 - 1 - (512 - 0 - 1) : Int) : ℝ), 0] : Cvec3 ℝ) i * 0.01) := by
    simp [motionM]
  have h2 : catchRun.g_objectRbt =
      Function.update (initState : State ℝ).g_objectRbt 2 (makeTranslation ![-4, 3, 0]) := by
    unfold catchRun
    rw [hk]
    show Function.update (initState : State ℝ).g_objectRbt 2
      (transFact (makeTranslation ![4, 3, 0]) * linFact (makeTranslation ![0, 3.25, 10]) *
        motionM false true false ((-300 - 500 : Int) : ℝ)
          (((512 : Int) - 0 - 1 - (512 - 0 - 1) : Int) : ℝ) *
        inv (transFact (makeTranslation ![4, 3, 0]) * linFact (makeTranslation ![0, 3.25, 10])) *
        makeTranslation ![4, 3, 0]) = _
    rw [hm, transFact_makeTranslation, linFact_makeTranslation, Matrix.mul_one,
      Matrix.mul_assoc, inv_makeTranslation, makeTranslation_mul (-![4, 3, 0]) ![4, 3, 0],
      neg_add_cancel, makeTranslation_zero, Matrix.mul_one, makeTranslation_mul,
      caught_position]
  refine ⟨?_, ?_, ?_, ?_⟩
  · show (initState : State ℝ).g_animSpeed * ((0 : Int) : ℝ) / 1000 = 0
    simp
  · rw [h2]
    rfl
  · rw [h2]
    rfl
  · rw [h2, Function.update_same]

/-- The chase expression of `drawScene` does not read where object 2 was: the old
position cancels against `toSphere`. -/
theorem drawScene_obj2_forgets (s : State ℝ) :
    (drawScene s).g_objectRbt 2 =
      makeScale ![0.4, 0.4, 0.4] *
        transFact (makeTranslation (position ((drawScene s).g_objectRbt 1)) *
          inv ((drawScene s).g_objectRbt 1)) := by
  rw [drawScene_obj2, transFact_eq_makeTranslation (s.g_objectRbt 2), makeTranslation_mul,
    add_sub_cancel]

/-! ## The claims -/

/-- Claim C1 (chase monotonicity), evaluated where the code breaks it.  The chase run
is a reachable state whose three transforms are rigid and whose `toTarget` is not zero;
object 2 is at distance 1 from object 1 before `drawScene` and at distance 5 after it:
the update moved object 2 away from object 1, although the source comments the
assignment with "The octahedron should move towards the sphere". -/
theorem chase_moves_away :
    Reachable chaseRun ∧
    (∀ i, isRigid (chaseRun.g_objectRbt i)) ∧
    position ((drawScene chaseRun).g_objectRbt 1) - position (chaseRun.g_objectRbt 2) ≠ 0 ∧
    distance (position (chaseRun.g_objectRbt 2)) (position (chaseRun.g_objectRbt 1)) = 1 ∧
    distance (position ((drawScene chaseRun).g_objectRbt 2))
      (position ((drawScene chaseRun).g_objectRbt 1)) = 5 ∧
    ¬ (distance (position ((drawScene chaseRun).g_objectRbt 2))
        (position ((drawScene chaseRun).g_objectRbt 1)) ≤
       distance (position (chaseRun.g_objectRbt 2)) (position (chaseRun.g_objectRbt 1))) := by
  obtain ⟨hinc, h0, h1, h2⟩ := chaseRun_fields
  obtain ⟨e1, e2⟩ := drawScene_translations chaseRun ![0, 4, 0] ![-4, 3, 0] ![-3, 3, 0]
    hinc h0 h1 h2
  have d0 : distance (position (chaseRun.g_objectRbt 2))
      (position (chaseRun.g_objectRbt 1)) = 1 := by
    rw [h1, h2, position_makeTranslation, position_makeTranslation]
    simp [distance, dist2]
    norm_num
  have d1 : distance (position ((drawScene chaseRun).g_objectRbt 2))
      (position ((drawScene chaseRun).g_objectRbt 1)) = 5 := by
    rw [e1, e2, position_makeScale_mul_makeTranslation, position_makeTranslation]
    have : dist2 (![(![0.4, 0.4, 0.4] : Cvec3 ℝ) 0 * (0 : Cvec3 ℝ) 0,
        (![0.4, 0.4, 0.4] : Cvec3 ℝ) 1 * (0 : Cvec3 ℝ) 1,
        (![0.4, 0.4, 0.4] : Cvec3 ℝ) 2 * (0 : Cvec3 ℝ) 2] : Cvec3 ℝ) ![-4, 3, 0] = 25 := by
      simp [dist2]
      norm_num
    rw [distance, this, sqrt_25]
  refine ⟨chaseRun_reachable, ?_, ?_, d0, d1, ?_⟩
  · intro i
    fin_cases i
    · show isRigid (chaseRun.g_objectRbt 0)
      rw [h0]
      exact isRigid_makeTranslation _
    · show isRigid (chaseRun.g_objectRbt 1)
      rw [h1]
      exact isRigid_makeTranslation _
    · show isRigid (chaseRun.g_objectRbt 2)
      rw [h2]
      exact isRigid_makeTranslation _
  · rw [e1, h2, position_makeTranslation, position_makeTranslation]
    intro h
    have := congrFun h 0
    simp at this
    norm_num at this
  · rw [d0, d1]
    norm_num

/-- Claim C2 as stated fails: in the orbit scenario the position of object 1 after one
`drawScene` is neither `(0, 0, -1)` nor `(0, 0, 1)`. -/
theorem orbit_quarter_not_on_z_axis :
    ¬ (position ((drawScene orbitScenario).g_objectRbt 1) = ![0, 0, -1] ∨
       position ((drawScene orbitScenario).g_objectRbt 1) = ![0, 0, 1]) := by
  rw [drawScene_quarter_orbit orbitScenario rfl rfl rfl]
  rintro (h | h) <;>
  · have := congrFun h 1
    simp at this

/-- Claim C2, amended: with `T0` the identity, `T1 = translate(1, 0, 0)` and a clock
increment of `0.25` (90 degrees), one `drawScene` puts object 1 at `(0, 1, 0)`: the
pivot is the transform of object 0 after its own spin `Rz(90) * Rx(90)`. -/
theorem orbit_quarter_position (s : State ℝ) (hinc : s.g_animIncrement = 0.25)
    (h0 : s.g_objectRbt 0 = 1) (h1 : s.g_objectRbt 1 = makeTranslation ![1, 0, 0]) :
    position ((drawScene s).g_objectRbt 1) = ![0, 1, 0] :=
  drawScene_quarter_orbit s hinc h0 h1

/-- Witness of `orbit_quarter_position`: the orbit scenario. -/
theorem orbit_quarter_position_witness :
    position ((drawScene orbitScenario).g_objectRbt 1) = ![0, 1, 0] :=
  orbit_quarter_position orbitScenario rfl rfl rfl

/-- Claim C3 (self-spin does not translate): for every state (every `T0`, affine or
not, and every clock increment) the position of object 0 and its translation factor
are the same before and after `drawScene`; at a clock increment of `0` object 0 is left
as it is, in particular `translate(0, 4, 0)` of the initial state stays
`translate(0, 4, 0)`. -/
theorem selfSpin_keeps_translation (s : State ℝ) :
    position ((drawScene s).g_objectRbt 0) = position (s.g_objectRbt 0) ∧
    transFact ((drawScene s).g_objectRbt 0) = transFact (s.g_objectRbt 0) ∧
    (drawScene { s with g_animIncrement := 0 }).g_objectRbt 0 = s.g_objectRbt 0 ∧
    (drawScene { (initState : State ℝ) with g_animIncrement := 0 }).g_objectRbt 0 =
      makeTranslation ![0, 4, 0] := by
  have hp : position ((drawScene s).g_objectRbt 0) = position (s.g_objectRbt 0) := by
    rw [drawScene_obj0, position_mul_of_lastCol _ rfl rfl rfl rfl,
      position_mul_of_lastCol _ rfl rfl rfl rfl]
  have hz : ∀ t : State ℝ,
      (drawScene { t with g_animIncrement := 0 }).g_objectRbt 0 = t.g_objectRbt 0 := by
    intro t
    rw [drawScene_obj0]
    show t.g_objectRbt 0 * makeZRotation (0 * 360) * makeXRotation (0 * 360) = t.g_objectRbt 0
    rw [zero_mul, makeZRotation_zero, makeXRotation_zero, Matrix.mul_one, Matrix.mul_one]
  exact ⟨hp, transFact_eq_of_position hp, hz s, hz initState⟩

/-- Claim C4 as stated fails: the three transforms of the initial state are rigid, and
after one `drawScene` the linear part of object 2 is not orthonormal. -/
theorem init_state_loses_rigidity :
    (∀ i, isRigid ((initState : State ℝ).g_objectRbt i)) ∧
    ¬ orthonormalLin ((drawScene initState).g_objectRbt 2) := by
  constructor
  · intro i
    fin_cases i <;> exact isRigid_makeTranslation _
  · unfold orthonormalLin
    rw [drawScene_obj2, linFact_makeScale_mul_transFact]
    intro h
    have e := congrFun (congrFun h 0) 0
    simp only [mul4_apply, Matrix.transpose_apply, makeScale, Matrix.of_apply,
      Matrix.cons_val_zero, Matrix.cons_val_one, Matrix.head_cons, Matrix.cons_val_two,
      Matrix.tail_cons, Matrix.cons_val_three, Matrix.one_apply_eq] at e
    norm_num at e

/-- Claim C4, amended: if the transforms of objects 0 and 1 are rigid before
`drawScene`, they are rigid after it; the transform stored for object 2 is affine with
linear part exactly `makeScale(0.4, 0.4, 0.4)`, whatever it was before (the scale is
stored, and it replaces the previous linear part instead of compounding). -/
theorem drawScene_rigid (s : State ℝ) (h0 : isRigid (s.g_objectRbt 0))
    (h1 : isRigid (s.g_objectRbt 1)) :
    isRigid ((drawScene s).g_objectRbt 0) ∧ isRigid ((drawScene s).g_objectRbt 1) ∧
    isAffine ((drawScene s).g_objectRbt 2) ∧
    linFact ((drawScene s).g_objectRbt 2) = makeScale ![0.4, 0.4, 0.4] := by
  have r0 : isRigid ((drawScene s).g_objectRbt 0) := by
    rw [drawScene_obj0]
    exact isRigid_mul (isRigid_mul h0 (isRigid_makeZRotation _)) (isRigid_makeXRotation _)
  refine ⟨r0, ?_, ?_, ?_⟩
  · rw [drawScene_obj1]
    exact isRigid_mul (isRigid_mul (isRigid_mul r0 (isRigid_makeYRotation _)) (isRigid_inv r0)) h1
  · rw [drawScene_obj2]
    exact isAffine_makeScale_mul_transFact _ _
  · rw [drawScene_obj2]
    exact linFact_makeScale_mul_transFact _ _

/-- Witness of `drawScene_rigid`: the initial state. -/
theorem drawScene_rigid_witness :
    isRigid ((drawScene initState).g_objectRbt 0) ∧
    isRigid ((drawScene initState).g_objectRbt 1) ∧
    isAffine ((drawScene initState).g_objectRbt 2) ∧
    linFact ((drawScene initState).g_objectRbt 2) = makeScale ![0.4, 0.4, 0.4] :=
  drawScene_rigid initState (isRigid_makeTranslation _) (isRigid_makeTranslation _)

/-- Claim C5 (clock advance): for a non-negative elapsed time and any speed, `idle`
sets the increment to `speed * elapsed / 1000`; the new clock value is the old value
plus the increment when that sum is at most `g_animMax = 1`, and `g_animStart = 0` when
the sum is greater than `1`.  (The sign of the elapsed time plays no role in the
proof.) -/
theorem idle_advance (s : State ℝ) (_he : 0 ≤ s.g_elapsedTime) :
    (idle s).g_animIncrement = s.g_animSpeed * (s.g_elapsedTime : ℝ) / 1000 ∧
    (s.g_animClock + s.g_animSpeed * (s.g_elapsedTime : ℝ) / 1000 ≤ 1 →
      (idle s).g_animClock = s.g_animClock + s.g_animSpeed * (s.g_elapsedTime : ℝ) / 1000) ∧
    (1 < s.g_animClock + s.g_animSpeed * (s.g_elapsedTime : ℝ) / 1000 →
      (idle s).g_animClock = 0) := by
  refine ⟨rfl, ?_, ?_⟩
  · intro h
    show (if s.g_animClock + s.g_animSpeed * (s.g_elapsedTime : ℝ) / 1000 > g_animMax
      then g_animStart else s.g_animClock + s.g_animSpeed * (s.g_elapsedTime : ℝ) / 1000) = _
    rw [if_neg]
    unfold g_animMax
    exact not_lt.mpr h
  · intro h
    show (if s.g_animClock + s.g_animSpeed * (s.g_elapsedTime : ℝ) / 1000 > g_animMax
      then g_animStart else s.g_animClock + s.g_animSpeed * (s.g_elapsedTime : ℝ) / 1000) = _
    rw [if_pos]
    · rfl
    · unfold g_animMax
      exact h

/-- Witness of `idle_advance`: clock `0.5`, speed `0.5`, one second elapsed. -/
theorem idle_advance_witness :
    (idle (clockAtMax : State ℝ)).g_animIncrement = 0.5 * ((1000 : Int) : ℝ) / 1000 ∧
    (idle (clockAtMax : State ℝ)).g_animClock = 0.5 + 0.5 * ((1000 : Int) : ℝ) / 1000 := by
  have h := idle_advance (clockAtMax : State ℝ) (by decide)
  refine ⟨h.1, h.2.1 ?_⟩
  show (0.5 : ℝ) + 0.5 * ((1000 : Int) : ℝ) / 1000 ≤ 1
  norm_num

/-- Claim C6 as stated fails twice.  From clock `0.5` with speed `0.5` and one second
elapsed the new value is exactly `1`, which is not reset (the test is `>`), so it is
not below `g_animMax`; from clock `0` with speed `-0.5` and 16 ms elapsed the new value
is negative. -/
theorem clock_leaves_half_open_range :
    ((0 : ℝ) ≤ (clockAtMax : State ℝ).g_animClock ∧ (clockAtMax : State ℝ).g_animClock < 1 ∧
      0 ≤ (clockAtMax : State ℝ).g_elapsedTime ∧
      (idle (clockAtMax : State ℝ)).g_animClock = 1) ∧
    ((0 : ℝ) ≤ (clockReversed : State ℝ).g_animClock ∧
      (clockReversed : State ℝ).g_animClock < 1 ∧
      0 ≤ (clockReversed : State ℝ).g_elapsedTime ∧
      (idle (clockReversed : State ℝ)).g_animClock < 0) := by
  have e1 : (idle (clockAtMax : State ℝ)).g_animClock = 1 := by
    have hc : ¬ ((0.5 : ℝ) + 0.5 * ((1000 : Int) : ℝ) / 1000 > g_animMax) := by
      unfold g_animMax
      norm_num
    show (if (0.5 : ℝ) + 0.5 * ((1000 : Int) : ℝ) / 1000 > g_animMax
      then g_animStart else (0.5 : ℝ) + 0.5 * ((1000 : Int) : ℝ) / 1000) = 1
    rw [if_neg hc]
    norm_num
  have e2 : (idle (clockReversed : State ℝ)).g_animClock = -0.008 := by
    have hc : ¬ ((0 : ℝ) + -0.5 * ((16 : Int) : ℝ) / 1000 > g_animMax) := by
      unfold g_animMax
      norm_num
    show (if (0 : ℝ) + -0.5 * ((16 : Int) : ℝ) / 1000 > g_animMax
      then g_animStart else (0 : ℝ) + -0.5 * ((16 : Int) : ℝ) / 1000) = -0.008
    rw [if_neg hc]
    norm_num
  refine ⟨⟨?_, ?_, ?_, e1⟩, ⟨?_, ?_, ?_, ?_⟩⟩
  · show (0 : ℝ) ≤ 0.5
    norm_num
  · show (0.5 : ℝ) < 1
    norm_num
  · decide
  · show (0 : ℝ) ≤ 0
    norm_num
  · show (0 : ℝ) < 1
    norm_num
  · decide
  · rw [e2]
    norm_num

/-- Claim C6, amended: for a clock value that is at least `g_animStart = 0` (so for
every value in `[0, 1)` and in `[0, 1]`), a non-negative elapsed time and a non-negative
speed, the value after `idle` is in the closed range `[0, 1]`. -/
theorem idle_clock_range (s : State ℝ) (h0 : 0 ≤ s.g_animClock)
    (he : 0 ≤ s.g_elapsedTime) (hs : 0 ≤ s.g_animSpeed) :
    0 ≤ (idle s).g_animClock ∧ (idle s).g_animClock ≤ 1 := by
  have hinc : 0 ≤ s.g_animSpeed * (s.g_elapsedTime : ℝ) / 1000 := by
    have : (0 : ℝ) ≤ (s.g_elapsedTime : ℝ) := by exact_mod_cast he
    positivity
  show 0 ≤ (if s.g_animClock + s.g_animSpeed * (s.g_elapsedTime : ℝ) / 1000 > g_animMax
      then g_animStart else s.g_animClock + s.g_animSpeed * (s.g_elapsedTime : ℝ) / 1000) ∧
    (if s.g_animClock + s.g_animSpeed * (s.g_elapsedTime : ℝ) / 1000 > g_animMax
      then g_animStart else s.g_animClock + s.g_animSpeed * (s.g_elapsedTime : ℝ) / 1000) ≤ 1
  unfold g_animMax g_animStart
  split_ifs with h
  · exact ⟨le_refl _, zero_le_one⟩
  · exact ⟨by linarith, not_lt.mp h⟩

/-- Witness of `idle_clock_range`: clock `0.5`, speed `0.5`, one second elapsed. -/
theorem idle_clock_range_witness :
    0 ≤ (idle (clockAtMax : State ℝ)).g_animClock ∧
    (idle (clockAtMax : State ℝ)).g_animClock ≤ 1 :=
  idle_clock_range clockAtMax (by show (0 : ℝ) ≤ 0.5; norm_num) (by decide)
    (by show (0 : ℝ) ≤ 0.5; norm_num)

/-- Claim C7 (`updateFrustFovY`): for a window of positive width and height and
`0 < g_frustMinFov < 180`, a window at least as wide as high gets `g_frustFovY =
g_frustMinFov`; a window higher than wide gets a `g_frustFovY = y` with
`tan(y/2) = tan(minFov/2) * height / width`, so that the horizontal field of view
`2 * atan(tan(y/2) * width / height)` is `g_frustMinFov` (angles in degrees). -/
theorem updateFrustFovY_spec (s : State ℝ) (hw : 0 < s.g_windowWidth)
    (hh : 0 < s.g_windowHeight) (hf0 : 0 < s.g_frustMinFov) (hf1 : s.g_frustMinFov < 180) :
    (s.g_windowWidth ≥ s.g_windowHeight →
      (updateFrustFovY s).g_frustFovY = s.g_frustMinFov) ∧
    (s.g_windowWidth < s.g_windowHeight →
      Real.tan ((updateFrustFovY s).g_frustFovY / 2 * (Real.pi / 180)) =
        Real.tan (s.g_frustMinFov / 2 * (Real.pi / 180)) *
          (s.g_windowHeight : ℝ) / (s.g_windowWidth : ℝ) ∧
      2 * Real.arctan (Real.tan ((updateFrustFovY s).g_frustFovY / 2 * (Real.pi / 180)) *
          (s.g_windowWidth : ℝ) / (s.g_windowHeight : ℝ)) * (180 / Real.pi) =
        s.g_frustMinFov) := by
  refine ⟨updateFrustFovY_wide s, ?_⟩
  intro h
  have hpi := Real.pi_pos
  have hwR : (0 : ℝ) < (s.g_windowWidth : ℝ) := by exact_mod_cast hw
  have hhR : (0 : ℝ) < (s.g_windowHeight : ℝ) := by exact_mod_cast hh
  have hr : s.g_frustMinFov * (0.5 * CS150_PI / 180) =
      s.g_frustMinFov / 2 * (Real.pi / 180) := by
    unfold CS150_PI
    ring
  have hr0 : -(Real.pi / 2) < s.g_frustMinFov / 2 * (Real.pi / 180) := by
    have : 0 < s.g_frustMinFov / 2 * (Real.pi / 180) := by positivity
    linarith
  have hr1 : s.g_frustMinFov / 2 * (Real.pi / 180) < Real.pi / 2 := by
    have : s.g_frustMinFov / 2 * (Real.pi / 180) < 180 / 2 * (Real.pi / 180) := by
      apply mul_lt_mul_of_pos_right _ (by positivity)
      linarith
    linarith
  have hcos : 0 < Real.cos (s.g_frustMinFov / 2 * (Real.pi / 180)) :=
    Real.cos_pos_of_mem_Ioo ⟨hr0, hr1⟩
  have hy : (updateFrustFovY s).g_frustFovY / 2 * (Real.pi / 180) =
      atan2 (Real.sin (s.g_frustMinFov / 2 * (Real.pi / 180)) * (s.g_windowHeight : ℝ) /
          (s.g_windowWidth : ℝ))
        (Real.cos (s.g_frustMinFov / 2 * (Real.pi / 180))) := by
    rw [updateFrustFovY_tall s h, hr]
    unfold CS150_PI
    field_simp
    ring
  obtain ⟨-, -, ht⟩ := atan2_of_pos
    (y := Real.sin (s.g_frustMinFov / 2 * (Real.pi / 180)) * (s.g_windowHeight : ℝ) /
      (s.g_windowWidth : ℝ)) hcos
  have htan : Real.tan ((updateFrustFovY s).g_frustFovY / 2 * (Real.pi / 180)) =
      Real.tan (s.g_frustMinFov / 2 * (Real.pi / 180)) *
        (s.g_windowHeight : ℝ) / (s.g_windowWidth : ℝ) := by
    rw [hy, ht, Real.tan_eq_sin_div_cos]
    ring
  refine ⟨htan, ?_⟩
  rw [htan]
  have hcancel : Real.tan (s.g_frustMinFov / 2 * (Real.pi / 180)) *
      (s.g_windowHeight : ℝ) / (s.g_windowWidth : ℝ) * (s.g_windowWidth : ℝ) /
      (s.g_windowHeight : ℝ) = Real.tan (s.g_frustMinFov / 2 * (Real.pi / 180)) := by
    field_simp
  rw [hcancel, Real.arctan_tan hr0 hr1]
  field_simp
  ring

/-- Witness of `updateFrustFovY_spec`: the initial 512 x 512 window with a minimal field
of view of 60 degrees gets exactly 60. -/
theorem updateFrustFovY_spec_witness :
    (updateFrustFovY (initState : State ℝ)).g_frustFovY = 60 :=
  (updateFrustFovY_spec initState (by decide) (by decide)
    (by show (0 : ℝ) < 60; norm_num) (by show (60 : ℝ) < 180; norm_num)).1 (by decide)

/-- Claim C8 as stated fails: with the middle and the left button held (right button
up) and a drag of `dy = 1`, the transform chosen by `motion` is not
`translate(0, 0, -dy * 0.01)`; the first branch (left without right) wins and yields a
rotation. -/
theorem motionM_middle_with_left :
    ¬ (motionM true false true 0 1 = makeTranslation ![0, 0, -(1 : ℝ) * 0.01]) := by
  intro h
  have e := congrFun (congrFun h 2) 3
  have hm : motionM true false true 0 1 = makeXRotation (-1) * makeYRotation 0 := by
    simp [motionM]
  rw [hm, rotation_product_no_depth] at e
  simp only [makeTranslation, Matrix.of_apply, Matrix.cons_val_zero, Matrix.cons_val_one,
    Matrix.head_cons, Matrix.cons_val_two, Matrix.tail_cons, Matrix.cons_val_three] at e
  norm_num at e

/-- Claim C8, amended: when left and right are both held, or the middle button is held
and neither left nor right is, the transform chosen by `motion` is
`translate(0, 0, -dy * 0.01)`. -/
theorem motionM_depth (l r mid : Bool) (dx dy : ℝ)
    (h : (l = true ∧ r = true) ∨ (mid = true ∧ l = false ∧ r = false)) :
    motionM l r mid dx dy = makeTranslation ![0, 0, -dy * 0.01] := by
  rw [← scaled_depth_vector]
  rcases h with ⟨hl, hr⟩ | ⟨hm, hl, hr⟩
  · subst hl hr
    simp [motionM]
  · subst hm hl hr
    simp [motionM]

/-- Witness of `motionM_depth`: the middle button alone, drag `(3, 5)`. -/
theorem motionM_depth_witness :
    motionM false false true 3 5 = makeTranslation ![0, 0, -(5 : ℝ) * 0.01] :=
  motionM_depth false false true 3 5 (Or.inr ⟨rfl, rfl, rfl⟩)

/-- Claim C9 (motion without a held button): in every reachable state with
`g_mouseClickDown` false no button flag is set, and `motion` changes nothing but the
stored mouse coordinates; the object transforms and the eye transform stay as they
are. -/
theorem motion_noop (s : State ℝ) (hr : Reachable s) (h : s.g_mouseClickDown = false)
    (x y : Int) :
    (s.g_mouseLClickButton = false ∧ s.g_mouseRClickButton = false ∧
      s.g_mouseMClickButton = false) ∧
    motion x y s =
      { s with g_mouseClickX := x, g_mouseClickY := s.g_windowHeight - y - 1 } := by
  constructor
  · have hinv := reachable_clickDown hr
    rw [h] at hinv
    cases hl : s.g_mouseLClickButton <;> cases hr' : s.g_mouseRClickButton <;>
      cases hm : s.g_mouseMClickButton <;> simp [hl, hr', hm] at hinv ⊢
  · unfold motion
    simp only [h, Bool.false_eq_true, if_false]

/-- Witness of `motion_noop`: the initial state. -/
theorem motion_noop_witness :
    motion 7 9 (initState : State ℝ) =
      { (initState : State ℝ) with
        g_mouseClickX := 7
        g_mouseClickY := (initState : State ℝ).g_windowHeight - 9 - 1 } :=
  (motion_noop initState Reachable.init rfl 7 9).2

/-- Claim C10 as stated fails: from the initial state, a left-button-down at `(0, 0)`
followed by a motion event at `(10, 0)` changes the transform of the selected
object. -/
theorem first_drag_changes_object :
    (motion 10 0 (mouse GLUT_LEFT_BUTTON GLUT_DOWN 0 0 (initState : State ℝ))).g_objectRbt
        (mouse GLUT_LEFT_BUTTON GLUT_DOWN 0 0 (initState : State ℝ)).g_objToManip ≠
      (initState : State ℝ).g_objectRbt (initState : State ℝ).g_objToManip := by
  intro h
  have hv := (motion_after_left_down 0 0).2
  rw [zero_add] at hv
  have h2 : (motion 10 0 (mouse GLUT_LEFT_BUTTON GLUT_DOWN 0 0
      (initState : State ℝ))).g_objectRbt 0 = makeTranslation ![0, 4, 0] := h
  rw [hv] at h2
  have e := congrFun (congrFun h2 0) 2
  rw [mul4_apply, makeYRotation_ten_entry] at e
  simp only [makeTranslation, makeYRotation, makeYRotationCS, Matrix.of_apply,
    Matrix.cons_val_zero, Matrix.cons_val_one, Matrix.head_cons, Matrix.cons_val_two,
    Matrix.tail_cons, Matrix.cons_val_three] at e
  have hpos : 0 < Real.sin (Real.pi / 18) :=
    Real.sin_pos_of_pos_of_lt_pi (by positivity) (by linarith [Real.pi_pos])
  norm_num at e
  linarith

/-- Claim C10, amended: from the initial state, after a left-button-down at `(x, y)` the
selected object is object 0, and a motion event at `(x + 10, y)` rotates it in place by
10 degrees about the y axis: its transform becomes `translate(0, 4, 0) * Ry(10)`. -/
theorem first_drag_rotates (x y : Int) :
    (mouse GLUT_LEFT_BUTTON GLUT_DOWN x y (initState : State ℝ)).g_objToManip = 0 ∧
    (motion (x + 10) y (mouse GLUT_LEFT_BUTTON GLUT_DOWN x y initState)).g_objectRbt 0 =
      makeTranslation ![0, 4, 0] * makeYRotation 10 :=
  motion_after_left_down x y

/-- Claim C11 (chase edge case), evaluated where the code breaks it.  The catch run is
a reachable state; after `drawScene` the transform of object 1 is rigid and object 2
sits exactly on it (`toTarget = 0`) at `(-4, 3, 0)`, yet the update puts object 2 at
`(0, 0, 0)`: it does not hold its position.  The same defect as in claim C1: the chase
expression does not read where object 2 was. -/
theorem chase_leaves_target :
    Reachable catchRun ∧
    isRigid ((drawScene catchRun).g_objectRbt 1) ∧
    position ((drawScene catchRun).g_objectRbt 1) - position (catchRun.g_objectRbt 2) = 0 ∧
    position (catchRun.g_objectRbt 2) = ![-4, 3, 0] ∧
    position ((drawScene catchRun).g_objectRbt 2) = ![0, 0, 0] ∧
    position ((drawScene catchRun).g_objectRbt 2) ≠ position (catchRun.g_objectRbt 2) := by
  obtain ⟨hinc, h0, h1, h2⟩ := catchRun_fields
  obtain ⟨e1, e2⟩ := drawScene_translations catchRun ![0, 4, 0] ![-4, 3, 0] ![-4, 3, 0]
    hinc h0 h1 h2
  have p2 : position (catchRun.g_objectRbt 2) = ![-4, 3, 0] := by
    rw [h2, position_makeTranslation]
  have p2' : position ((drawScene catchRun).g_objectRbt 2) = ![0, 0, 0] := by
    rw [e2, position_makeScale_mul_makeTranslation]
    funext i
    fin_cases i <;> simp
  refine ⟨catchRun_reachable, ?_, ?_, p2, p2', ?_⟩
  · rw [e1]
    exact isRigid_makeTranslation _
  · rw [e1, position_makeTranslation, p2, sub_self]
  · rw [p2, p2']
    intro h
    have := congrFun h 1
    simp at this

/-- Claim C12 (the orbit keeps object 1 at a constant distance from object 0): for every
rigid `T0'`, every transform `T1` whose translation column is a point (last row
`0 0 0 1`) and every angle, `T1' = T0' * Ry(theta) * inv(T0') * T1` is as far from the
position of `T0'` as `T1` is.  `drawScene` assigns this expression to object 1, and in
every reachable state the hypotheses hold, so `drawScene` keeps the distance of object 1
to the spun object 0. -/
theorem orbit_keeps_distance (T0' T1 : Matrix4 ℝ) (theta : ℝ) (h0 : isRigid T0')
    (h1 : isAffine T1) :
    distance (position (T0' * makeYRotation theta * inv T0' * T1)) (position T0') =
      distance (position T1) (position T0') ∧
    ∀ s : State ℝ, Reachable s →
      distance (position ((drawScene s).g_objectRbt 1))
          (position ((drawScene s).g_objectRbt 0)) =
        distance (position (s.g_objectRbt 1)) (position ((drawScene s).g_objectRbt 0)) := by
  constructor
  · unfold distance
    rw [orbit_dist2 T0' T1 theta h0 h1.2.2.2]
  · intro s hr
    obtain ⟨_, r0, r1, _⟩ := reachable_transforms hr
    unfold distance
    rw [drawScene_obj1,
      orbit_dist2 _ _ _ (drawScene_keeps_rigid s r0 r1).1 r1.1.2.2.2]

/-- Witness of `orbit_keeps_distance`: the pivot `translate(0, 4, 0)`, object 1 at
`translate(-4, 3, 0)` and a turn of 90 degrees. -/
theorem orbit_keeps_distance_witness :
    distance (position (makeTranslation ![0, 4, 0] * makeYRotation 90 *
        inv (makeTranslation ![0, 4, 0]) * makeTranslation ![-4, 3, 0]))
      (position (makeTranslation ![0, 4, 0] : Matrix4 ℝ)) =
    distance (position (makeTranslation ![-4, 3, 0] : Matrix4 ℝ))
      (position (makeTranslation ![0, 4, 0] : Matrix4 ℝ)) :=
  (orbit_keeps_distance (makeTranslation ![0, 4, 0]) (makeTranslation ![-4, 3, 0]) 90
    (isRigid_makeTranslation _) (isRigid_makeTranslation _).1).1

end Equilibrium
